import Mathlib

/-!
Shallow embedding of `src/github_analyzer.py` (GitHub Relationship Analyzer).

The program is a command-line utility around one class, `GitHubAnalyzer`:
username validation by a regular expression, paginated fetching of the
followers / following lists with per-session caching, two list-difference
computations, and flat-file output.  Strings are modelled as Lean `String`
(or `List Char` where character-level reasoning is needed), the HTTP
endpoint as a function from page numbers to page results, and the mutable
session as explicit state passing.
-/

/-- ASCII alphanumeric: the regex character class `[a-zA-Z0-9]`
(`'0'`..`'9'` = 48..57, `'A'`..`'Z'` = 65..90, `'a'`..`'z'` = 97..122). -/
def isAlnumAscii (c : Char) : Bool :=
  (48 ≤ c.toNat && c.toNat ≤ 57) || (65 ≤ c.toNat && c.toNat ≤ 90) ||
    (97 ≤ c.toNat && c.toNat ≤ 122)

/-- Python `re` semantics of the `$` anchor (no `re.MULTILINE`): it matches
at the end of the string, or just before a single newline at the end of the
string. -/
def dollarOk : List Char → Bool
  | [] => true
  | [c] => c == '\n'
  | _ :: _ :: _ => false

/-- The quantified part of the username regex of
`GitHubAnalyzer.validate_username`:
`matchRest r n` decides whether `(?:[a-zA-Z0-9]|-(?=[a-zA-Z0-9])){0,n}$`
matches `r`.  Each iteration consumes one character: an alphanumeric, or a
hyphen whose lookahead requires the next character to be alphanumeric.  The
engine may stop iterating whenever `$` matches. -/
def matchRest : List Char → Nat → Bool
  | r, 0 => dollarOk r
  | r, n + 1 =>
    if dollarOk r then true
    else
      match r with
      | [] => false
      | c :: rest =>
        if isAlnumAscii c then matchRest rest n
        else if c == '-' then
          match rest with
          | [] => false
          | d :: _ => isAlnumAscii d && matchRest rest n
        else false

/-- `GitHubAnalyzer.validate_username` (line 43):
`re.match(r'^[a-zA-Z0-9](?:[a-zA-Z0-9]|-(?=[a-zA-Z0-9])){0,38}$', username)`,
truthy iff the regex matches. -/
def validate_username (s : List Char) : Bool :=
  match s with
  | [] => false
  | c :: rest => isAlnumAscii c && matchRest rest 38

/-- Spec grammar component: no two consecutive hyphens anywhere
("single internal hyphens"). -/
def noDoubleHyphen : List Char → Bool
  | c :: d :: rest => !(c == '-' && d == '-') && noDoubleHyphen (d :: rest)
  | _ => true

/-- The account-identifier grammar exactly as the spec states it:
1–39 characters, alphanumeric characters and single internal hyphens only,
no leading hyphen, no trailing hyphen. -/
def specGrammar (s : List Char) : Bool :=
  decide (1 ≤ s.length) && decide (s.length ≤ 39) &&
  s.all (fun d => isAlnumAscii d || d == '-') &&
  (match s.head? with | some c => !(c == '-') | none => false) &&
  (match s.getLast? with | some c => !(c == '-') | none => false) &&
  noDoubleHyphen s

/-- Helper for relating the regex to the grammar: the body matched by the
quantified group, evaluated as if nothing follows it (a hyphen at the end
has no alphanumeric successor, so it fails the lookahead). -/
def tailOk0 : List Char → Bool
  | [] => true
  | c :: rest =>
    if isAlnumAscii c then tailOk0 rest
    else if c == '-' then
      match rest with
      | [] => false
      | d :: _ => isAlnumAscii d && tailOk0 rest
    else false

/-- `splitNl s = some b` iff `s = b ++ ['\n']` (strip one trailing newline). -/
def splitNl : List Char → Option (List Char)
  | [] => none
  | [c] => if c == '\n' then some [] else none
  | c :: d :: r =>
    match splitNl (d :: r) with
    | some b => some (c :: b)
    | none => none

/-- `last character is not a hyphen` with the empty list vacuously true
(used for regex bodies, where emptiness is allowed). -/
def noTrailHyphen (b : List Char) : Bool :=
  match b.getLast? with
  | some c => !(c == '-')
  | none => true

/-- The list comprehension of `GitHubAnalyzer.find_non_followers` (line 116):
`[user for user in following if user not in followers]`. -/
def nonFollowers (following followers : List String) : List String :=
  following.filter (fun u => !(followers.contains u))

/-- The list comprehension of `GitHubAnalyzer.find_fans` (line 130):
`[user for user in followers if user not in following]`. -/
def fans (following followers : List String) : List String :=
  followers.filter (fun u => !(following.contains u))

/-- The two listing endpoints used by the session
(`/users/{username}/followers` and `/users/{username}/following`). -/
inductive Endpoint
  | followers
  | following
deriving DecidableEq, Repr

/-- Outcome of one page request as seen by the `try` block of
`GitHubAnalyzer._get_paginated_data` (lines 60–67):
* `success items`: 2xx response whose body parses to a JSON array; only the
  `login` field of each element is ever used downstream, so an item is
  modelled as its login string;
* `malformed`: 2xx response but `response.json()` raises (not an
  `HTTPError`, hence uncaught);
* `httpError status`: `response.raise_for_status()` raises
  `requests.exceptions.HTTPError` with this status code;
* `transportError`: `session.get` itself raises a non-HTTPError
  `requests` exception (connection error, timeout, ...), uncaught. -/
inductive PageResult
  | success (items : List String)
  | malformed
  | httpError (status : Nat)
  | transportError
deriving DecidableEq, Repr

/-- Console messages printed by the fetch path (informational side
channel; the 404 branch and the generic branch print different text). -/
inductive Msg
  | userNotFound
  | httpErrorMsg
  | fetchingFollowers
  | fetchingFollowing
deriving DecidableEq, Repr

/-- Python exceptions that escape `_get_paginated_data` uncaught. -/
inductive PyExc
  | jsonDecodeError
  | requestException
deriving DecidableEq, Repr

/-- How a call to `_get_paginated_data` ends: a normal `return results`,
the `return None` of the `except` handler, or an uncaught exception. -/
inductive FetchResult
  | ok (items : List String)
  | noneResult
  | raised (e : PyExc)
deriving DecidableEq, Repr

/-- One HTTP request issued by the loop: endpoint plus the
`{'per_page': 100, 'page': page}` parameters. -/
structure Req where
  endpoint : Endpoint
  perPage : Nat
  page : Nat
deriving DecidableEq, Repr

/-- The `while True` loop of `GitHubAnalyzer._get_paginated_data`
(lines 55–74), with the page function standing for the endpoint, an
explicit request log and message log, and fuel making the possibly
diverging loop a total function (`none` = still looping after `fuel`
iterations). -/
def get_paginated_data_loop (pages : Nat → PageResult) (ep : Endpoint) :
    Nat → Nat → List String → List Req → List Msg →
    Option (FetchResult × List Req × List Msg)
  | 0, _, _, _, _ => none
  | fuel + 1, page, results, reqs, msgs =>
    let reqs1 := reqs ++ [⟨ep, 100, page⟩]
    match pages page with
    | .success data =>
      if data.isEmpty then some (.ok results, reqs1, msgs)
      else get_paginated_data_loop pages ep fuel (page + 1) (results ++ data) reqs1 msgs
    | .malformed => some (.raised .jsonDecodeError, reqs1, msgs)
    | .httpError status =>
      if status == 404 then some (.noneResult, reqs1, msgs ++ [.userNotFound])
      else some (.noneResult, reqs1, msgs ++ [.httpErrorMsg])
    | .transportError => some (.raised .requestException, reqs1, msgs)

/-- `GitHubAnalyzer._get_paginated_data(endpoint)`: start at page 1 with an
empty accumulator. -/
def get_paginated_data (pages : Nat → PageResult) (ep : Endpoint) (fuel : Nat) :
    Option (FetchResult × List Req × List Msg) :=
  get_paginated_data_loop pages ep fuel 1 [] [] []

/-- The external API: one page function per relation kind. -/
structure Env where
  followersPages : Nat → PageResult
  followingPages : Nat → PageResult

/-- The mutable fields of a `GitHubAnalyzer` session: `self._followers`
and `self._following`, each `None` (unfetched) or a cached list. -/
structure AnalyzerState where
  followers : Option (List String)
  following : Option (List String)
deriving DecidableEq, Repr

/-- `GitHubAnalyzer.__init__` sets both cache fields to `None`. -/
def initState : AnalyzerState := ⟨none, none⟩

/-- `GitHubAnalyzer.get_followers` (lines 76–88).  Returns the Python value
of `self._followers` after the call (`Option` = Python's None-or-list), the
new state, the requests issued and the messages printed; `Except.error`
models an uncaught exception propagating out (cache unchanged), outer
`none` models loop divergence (fuel exhaustion). -/
def get_followers (env : Env) (s : AnalyzerState) (fuel : Nat) :
    Option (Except PyExc (Option (List String)) × AnalyzerState × List Req × List Msg) :=
  match s.followers with
  | some cached => some (.ok (some cached), s, [], [])
  | none =>
    match get_paginated_data env.followersPages .followers fuel with
    | none => none
    | some (.ok items, reqs, msgs) =>
      some (.ok (some items), ⟨some items, s.following⟩, reqs, .fetchingFollowers :: msgs)
    | some (.noneResult, reqs, msgs) =>
      some (.ok (some []), ⟨some [], s.following⟩, reqs, .fetchingFollowers :: msgs)
    | some (.raised e, reqs, msgs) =>
      some (.error e, s, reqs, .fetchingFollowers :: msgs)

/-- `GitHubAnalyzer.get_following` (lines 90–102), symmetric to
`get_followers`. -/
def get_following (env : Env) (s : AnalyzerState) (fuel : Nat) :
    Option (Except PyExc (Option (List String)) × AnalyzerState × List Req × List Msg) :=
  match s.following with
  | some cached => some (.ok (some cached), s, [], [])
  | none =>
    match get_paginated_data env.followingPages .following fuel with
    | none => none
    | some (.ok items, reqs, msgs) =>
      some (.ok (some items), ⟨s.followers, some items⟩, reqs, .fetchingFollowing :: msgs)
    | some (.noneResult, reqs, msgs) =>
      some (.ok (some []), ⟨s.followers, some []⟩, reqs, .fetchingFollowing :: msgs)
    | some (.raised e, reqs, msgs) =>
      some (.error e, s, reqs, .fetchingFollowing :: msgs)

/-- `GitHubAnalyzer.find_non_followers` (lines 104–116): fetch following,
then followers; if either value `is None`, return `[]` (the `Bool` in the
result records whether that guard branch was taken), else the
comprehension.  Exceptions from the getters propagate. -/
def find_non_followers (env : Env) (s : AnalyzerState) (fuel : Nat) :
    Option (Except PyExc (List String × Bool) × AnalyzerState × List Req × List Msg) :=
  match get_following env s fuel with
  | none => none
  | some (.error e, s1, reqs1, msgs1) => some (.error e, s1, reqs1, msgs1)
  | some (.ok followingV, s1, reqs1, msgs1) =>
    match get_followers env s1 fuel with
    | none => none
    | some (.error e, s2, reqs2, msgs2) =>
      some (.error e, s2, reqs1 ++ reqs2, msgs1 ++ msgs2)
    | some (.ok followersV, s2, reqs2, msgs2) =>
      match followingV, followersV with
      | some fg, some fr =>
        some (.ok (nonFollowers fg fr, false), s2, reqs1 ++ reqs2, msgs1 ++ msgs2)
      | _, _ => some (.ok ([], true), s2, reqs1 ++ reqs2, msgs1 ++ msgs2)

/-- `GitHubAnalyzer.find_fans` (lines 118–130), symmetric to
`find_non_followers` but diffing in the other direction. -/
def find_fans (env : Env) (s : AnalyzerState) (fuel : Nat) :
    Option (Except PyExc (List String × Bool) × AnalyzerState × List Req × List Msg) :=
  match get_following env s fuel with
  | none => none
  | some (.error e, s1, reqs1, msgs1) => some (.error e, s1, reqs1, msgs1)
  | some (.ok followingV, s1, reqs1, msgs1) =>
    match get_followers env s1 fuel with
    | none => none
    | some (.error e, s2, reqs2, msgs2) =>
      some (.error e, s2, reqs1 ++ reqs2, msgs1 ++ msgs2)
    | some (.ok followersV, s2, reqs2, msgs2) =>
      match followingV, followersV with
      | some fg, some fr =>
        some (.ok (fans fg fr, false), s2, reqs1 ++ reqs2, msgs1 ++ msgs2)
      | _, _ => some (.ok ([], true), s2, reqs1 ++ reqs2, msgs1 ++ msgs2)

/-- A stub endpoint serving the non-empty pages of `L` at pages
`1 .. L.length` and an empty page from page `L.length + 1` on. -/
def pagesOfList (L : List (List String)) : Nat → PageResult := fun k =>
  if h : k - 1 < L.length then .success (L.get ⟨k - 1, h⟩) else .success []

/-- A stub endpoint serving the non-empty pages of `L` at pages
`1 .. L.length` and then failing every request with HTTP status
`status`. -/
def pagesThenError (L : List (List String)) (status : Nat) : Nat → PageResult := fun k =>
  if h : k - 1 < L.length then .success (L.get ⟨k - 1, h⟩) else .httpError status

/-- A page of `n` distinct items (offset `m` keeps pages disjoint). -/
def stubPage (m n : Nat) : List String :=
  (List.range n).map (fun i => toString (m + i))

/-- The spec's pagination stub: pages of sizes 100, 100, 37 followed by an
empty page. -/
def stub237 : List (List String) :=
  [stubPage 0 100, stubPage 100 100, stubPage 200 37]

/-- A session whose followers fetch fails with 404 while its following
fetch succeeds with the single page `["alice"]`. -/
def envFollowersFail : Env := ⟨pagesThenError [] 404, pagesOfList [["alice"]]⟩

/-- Lowercase hex digit, as Python's `json` emits in `\uXXXX` escapes. -/
def hexDigitChar (n : Nat) : Char :=
  if n < 10 then Char.ofNat (48 + n) else Char.ofNat (87 + n)

def hex4 (n : Nat) : List Char :=
  [hexDigitChar (n / 4096 % 16), hexDigitChar (n / 256 % 16),
   hexDigitChar (n / 16 % 16), hexDigitChar (n % 16)]

/-- Modelled from the spec: `save_to_file` delegates serialization to the
Python standard library's `json.dump(data, f, indent=4)` (not part of this
repository), whose default `ensure_ascii=True` escaping emits `\"`, `\\`,
the short escapes for backspace/tab/newline/formfeed/carriage-return,
`\uXXXX` for other control or non-ASCII characters (surrogate pairs above
the BMP), and every other ASCII character verbatim. -/
def escapeJsonChar (c : Char) : List Char :=
  if c = '"' then ['\\', '"']
  else if c = '\\' then ['\\', '\\']
  else if c = Char.ofNat 8 then ['\\', 'b']
  else if c = Char.ofNat 9 then ['\\', 't']
  else if c = Char.ofNat 10 then ['\\', 'n']
  else if c = Char.ofNat 12 then ['\\', 'f']
  else if c = Char.ofNat 13 then ['\\', 'r']
  else if c.toNat < 32 ∨ 126 < c.toNat then
    if c.toNat ≤ 65535 then '\\' :: 'u' :: hex4 c.toNat
    else
      ('\\' :: 'u' :: hex4 (55296 + (c.toNat - 65536) / 1024)) ++
        ('\\' :: 'u' :: hex4 (56320 + (c.toNat - 65536) % 1024))
  else [c]

/-- A JSON string literal: quotes around the escaped characters. -/
def jsonStringLit (s : String) : List Char :=
  '"' :: (s.data.map escapeJsonChar).flatten ++ ['"']

def indent4 : List Char := [' ', ' ', ' ', ' ']

/-- The character content `json.dump(data, f, indent=4)` writes for a list
of strings (the `json` branch of `GitHubAnalyzer.save_to_file`, line 156):
`[]` for the empty list, otherwise one 4-space-indented element per line,
separated by commas. -/
def jsonDumpList (l : List String) : List Char :=
  match l with
  | [] => ['[', ']']
  | x :: xs =>
    ['[', '\n'] ++ indent4 ++ jsonStringLit x ++
      (xs.map (fun s => [',', '\n'] ++ indent4 ++ jsonStringLit s)).flatten ++ ['\n', ']']

def isJsonWs (c : Char) : Bool :=
  c == ' ' || c == '\n' || c == '\t' || c == '\r'

def skipWs : List Char → List Char
  | [] => []
  | c :: rest => if isJsonWs c then skipWs rest else c :: rest

def hexVal (c : Char) : Option Nat :=
  if 48 ≤ c.toNat ∧ c.toNat ≤ 57 then some (c.toNat - 48)
  else if 97 ≤ c.toNat ∧ c.toNat ≤ 102 then some (c.toNat - 87)
  else if 65 ≤ c.toNat ∧ c.toNat ≤ 70 then some (c.toNat - 55)
  else none

/-- Modelled from the spec: decoding one JSON escape sequence (after the
backslash) while reading the file back; `\uXXXX` high surrogates must be
followed by a low surrogate and are recombined. -/
def decodeEscape : List Char → Option (Char × List Char)
  | [] => none
  | e :: rest =>
    if e = '"' then some ('"', rest)
    else if e = '\\' then some ('\\', rest)
    else if e = '/' then some ('/', rest)
    else if e = 'b' then some (Char.ofNat 8, rest)
    else if e = 't' then some (Char.ofNat 9, rest)
    else if e = 'n' then some (Char.ofNat 10, rest)
    else if e = 'f' then some (Char.ofNat 12, rest)
    else if e = 'r' then some (Char.ofNat 13, rest)
    else if e = 'u' then
      match rest with
      | h1 :: h2 :: h3 :: h4 :: rest4 =>
        match hexVal h1, hexVal h2, hexVal h3, hexVal h4 with
        | some a, some b, some c, some d =>
          let n := ((a * 16 + b) * 16 + c) * 16 + d
          if 55296 ≤ n ∧ n ≤ 56319 then
            match rest4 with
            | '\\' :: 'u' :: g1 :: g2 :: g3 :: g4 :: rest8 =>
              match hexVal g1, hexVal g2, hexVal g3, hexVal g4 with
              | some a2, some b2, some c2, some d2 =>
                let m := ((a2 * 16 + b2) * 16 + c2) * 16 + d2
                if 56320 ≤ m ∧ m ≤ 57343 then
                  some (Char.ofNat (65536 + (n - 55296) * 1024 + (m - 56320)), rest8)
                else none
              | _, _, _, _ => none
            | _ => none
          else if 56320 ≤ n ∧ n ≤ 57343 then none
          else some (Char.ofNat n, rest4)
        | _, _, _, _ => none
      | _ => none
    else none

/-- Modelled from the spec: reading a JSON string body up to the closing
quote, decoding escapes (fuelled; the callers pass enough fuel). -/
def parseStringBody : Nat → List Char → Option (List Char × List Char)
  | 0, _ => none
  | _ + 1, [] => none
  | fuel + 1, c :: rest =>
    if c = '"' then some ([], rest)
    else if c = '\\' then
      match decodeEscape rest with
      | none => none
      | some (d, rest2) =>
        match parseStringBody fuel rest2 with
        | some (cs, r) => some (d :: cs, r)
        | none => none
    else
      match parseStringBody fuel rest with
      | some (cs, r) => some (c :: cs, r)
      | none => none

/-- Modelled from the spec: the comma-separated items of a non-empty JSON
array of strings. -/
def parseItems : Nat → List Char → Option (List (List Char) × List Char)
  | 0, _ => none
  | fuel + 1, l =>
    match skipWs l with
    | [] => none
    | c :: rest =>
      if c = '"' then
        match parseStringBody (rest.length + 1) rest with
        | none => none
        | some (cs, r) =>
          match skipWs r with
          | [] => none
          | c2 :: r2 =>
            if c2 = ',' then
              match parseItems fuel r2 with
              | some (ss, r3) => some (cs :: ss, r3)
              | none => none
            else if c2 = ']' then some ([cs], r2)
            else none
      else none

/-- Modelled from the spec: reading/parsing the written file back as a
JSON array of strings (round-trip direction that the repository itself
does not implement). -/
def jsonParseList (input : List Char) : Option (List String) :=
  match skipWs input with
  | [] => none
  | c :: rest =>
    if c = '[' then
      match skipWs rest with
      | [] => none
      | c2 :: r =>
        if c2 = ']' then (if (skipWs r).isEmpty then some [] else none)
        else
          match parseItems (rest.length + 1) rest with
          | some (ss, r2) =>
            if (skipWs r2).isEmpty then some (ss.map (fun cs => String.mk cs)) else none
          | none => none
    else none

/-- One-step unfolding of the fetch loop at positive fuel. -/
theorem get_paginated_data_loop_succ (pages : Nat → PageResult) (ep : Endpoint)
    (fuel page : Nat) (results : List String) (reqs : List Req) (msgs : List Msg) :
    get_paginated_data_loop pages ep (fuel + 1) page results reqs msgs =
      (match pages page with
       | .success data =>
         if data.isEmpty then some (.ok results, reqs ++ [⟨ep, 100, page⟩], msgs)
         else get_paginated_data_loop pages ep fuel (page + 1) (results ++ data)
           (reqs ++ [⟨ep, 100, page⟩]) msgs
       | .malformed => some (.raised .jsonDecodeError, reqs ++ [⟨ep, 100, page⟩], msgs)
       | .httpError status =>
         if status == 404 then
           some (.noneResult, reqs ++ [⟨ep, 100, page⟩], msgs ++ [.userNotFound])
         else some (.noneResult, reqs ++ [⟨ep, 100, page⟩], msgs ++ [.httpErrorMsg])
       | .transportError => some (.raised .requestException, reqs ++ [⟨ep, 100, page⟩], msgs)) :=
  rfl

/-- Consuming a run of non-empty successful pages: the loop walks through
them, accumulating items and logging one request per page. -/
theorem get_paginated_data_loop_consume (pages : Nat → PageResult) (ep : Endpoint) :
    ∀ (L : List (List String)) (fuel page : Nat) (acc : List String)
      (reqs : List Req) (msgs : List Msg),
      (∀ i (h : i < L.length), pages (page + i) = .success (L.get ⟨i, h⟩)) →
      (∀ pl ∈ L, pl ≠ []) →
      get_paginated_data_loop pages ep (fuel + L.length) page acc reqs msgs =
        get_paginated_data_loop pages ep fuel (page + L.length) (acc ++ L.flatten)
          (reqs ++ (List.range L.length).map (fun i => ⟨ep, 100, page + i⟩)) msgs := by
  intro L
  induction L with
  | nil => intro fuel page acc reqs msgs _ _; simp
  | cons pl L ih =>
    intro fuel page acc reqs msgs hpages hne
    have h0 : pages page = .success pl := by simpa using hpages 0 (by simp)
    have hemp : pl.isEmpty = false := by
      cases pl with
      | nil => exact absurd rfl (hne [] (by simp))
      | cons a t => rfl
    have hlen : fuel + (pl :: L).length = (fuel + L.length) + 1 := by
      simp [List.length_cons]; omega
    rw [hlen, get_paginated_data_loop_succ, h0]
    simp only [hemp, Bool.false_eq_true, if_false]
    have hpages' : ∀ i (h : i < L.length), pages (page + 1 + i) = .success (L.get ⟨i, h⟩) := by
      intro i h
      have := hpages (i + 1) (by simpa using Nat.succ_lt_succ h)
      rw [show page + (i + 1) = page + 1 + i by omega] at this
      simpa using this
    rw [ih fuel (page + 1) (acc ++ pl) (reqs ++ [(⟨ep, 100, page⟩ : Req)]) msgs hpages'
      (fun q hq => hne q (by simp [hq]))]
    have harith : page + 1 + L.length = page + (pl :: L).length := by simp; omega
    have hacc : acc ++ pl ++ L.flatten = acc ++ (pl :: L).flatten := by simp
    have hreqs : reqs ++ [(⟨ep, 100, page⟩ : Req)] ++
        (List.range L.length).map (fun i => (⟨ep, 100, page + 1 + i⟩ : Req)) =
        reqs ++ (List.range (pl :: L).length).map (fun i => (⟨ep, 100, page + i⟩ : Req)) := by
      have hfun : ((fun i => (⟨ep, 100, page + i⟩ : Req)) ∘ Nat.succ) =
          fun i => (⟨ep, 100, page + 1 + i⟩ : Req) := by
        funext i
        simp only [Function.comp_apply, Req.mk.injEq, true_and]
        omega
      simp [List.range_succ_eq_map, List.map_map, hfun]
    rw [harith, hacc, hreqs]

/-- A fetch against `pagesOfList L` consumes the `L.length` non-empty pages
and the terminating empty page, returning the concatenation and one request
per page, pages `1` through `L.length + 1`, each with `per_page = 100`. -/
theorem get_paginated_data_pagesOfList (L : List (List String)) (ep : Endpoint)
    (fuel : Nat) (hne : ∀ pl ∈ L, pl ≠ []) :
    get_paginated_data (pagesOfList L) ep (fuel + L.length + 1) =
      some (.ok L.flatten,
        (List.range (L.length + 1)).map (fun i => ⟨ep, 100, 1 + i⟩), []) := by
  unfold get_paginated_data
  have hpg : ∀ i (h : i < L.length), pagesOfList L (1 + i) = .success (L.get ⟨i, h⟩) := by
    intro i h
    simp only [pagesOfList, Nat.add_sub_cancel_left]
    rw [dif_pos (by simpa using h)]
  rw [show fuel + L.length + 1 = (fuel + 1) + L.length by omega]
  rw [get_paginated_data_loop_consume (pagesOfList L) ep L (fuel + 1) 1 [] [] [] hpg hne]
  rw [get_paginated_data_loop_succ]
  have hend : pagesOfList L (1 + L.length) = .success [] := by
    simp only [pagesOfList, Nat.add_sub_cancel_left]
    rw [dif_neg (by omega)]
  rw [hend]
  simp [List.range_succ]

/-- A fetch against `pagesThenError L status` consumes the `L.length`
non-empty pages, then the failing request makes the whole call return
`None`, discarding the accumulated items; the printed message
distinguishes 404 from every other status. -/
theorem get_paginated_data_pagesThenError (L : List (List String)) (status : Nat)
    (ep : Endpoint) (fuel : Nat) (hne : ∀ pl ∈ L, pl ≠ []) :
    get_paginated_data (pagesThenError L status) ep (fuel + L.length + 1) =
      some (.noneResult,
        (List.range (L.length + 1)).map (fun i => ⟨ep, 100, 1 + i⟩),
        [if status == 404 then Msg.userNotFound else Msg.httpErrorMsg]) := by
  unfold get_paginated_data
  have hpg : ∀ i (h : i < L.length),
      pagesThenError L status (1 + i) = .success (L.get ⟨i, h⟩) := by
    intro i h
    simp only [pagesThenError, Nat.add_sub_cancel_left]
    rw [dif_pos (by simpa using h)]
  rw [show fuel + L.length + 1 = (fuel + 1) + L.length by omega]
  rw [get_paginated_data_loop_consume (pagesThenError L status) ep L (fuel + 1) 1 [] [] [] hpg hne]
  rw [get_paginated_data_loop_succ]
  have hend : pagesThenError L status (1 + L.length) = .httpError status := by
    simp only [pagesThenError, Nat.add_sub_cancel_left]
    rw [dif_neg (by omega)]
  rw [hend]
  by_cases h404 : status == 404
  · simp [h404, List.range_succ]
  · simp [h404, List.range_succ]

/-- Claim C1: `nonFollowers` returns exactly the identifiers present in
`following` but absent from `followers`, preserving `following`'s order
(it is a sublist of `following`), and `fans` symmetrically with the roles
and the order source swapped; the spec's three concrete reconciliation
examples hold. -/
theorem nonFollowers_fans_spec :
    (∀ (following followers : List String) (u : String),
        u ∈ nonFollowers following followers ↔ u ∈ following ∧ u ∉ followers)
    ∧ (∀ following followers : List String,
        (nonFollowers following followers).Sublist following)
    ∧ (∀ (following followers : List String) (u : String),
        u ∈ fans following followers ↔ u ∈ followers ∧ u ∉ following)
    ∧ (∀ following followers : List String,
        (fans following followers).Sublist followers)
    ∧ nonFollowers ["a", "b", "c"] ["b", "c", "d"] = ["a"]
    ∧ fans ["a", "b", "c"] ["b", "c", "d"] = ["d"]
    ∧ nonFollowers [] [] = [] ∧ fans [] [] = []
    ∧ nonFollowers ["a", "b"] ["a", "b"] = [] ∧ fans ["a", "b"] ["a", "b"] = [] := by
  refine ⟨?_, ?_, ?_, ?_, by decide, by decide, by decide, by decide, by decide, by decide⟩
  · intro fg fr u
    simp [nonFollowers, List.mem_filter, List.elem_iff]
  · intro fg fr
    exact List.filter_sublist fg
  · intro fg fr u
    simp [fans, List.mem_filter, List.elem_iff]
  · intro fg fr
    exact List.filter_sublist fr

/-- Witness for C1 at a concrete input. -/
theorem nonFollowers_fans_spec_witness :
    "a" ∈ nonFollowers ["a"] [] ↔ "a" ∈ ["a"] ∧ "a" ∉ ([] : List String) :=
  nonFollowers_fans_spec.1 ["a"] [] "a"

/-- Claim C3: the fetch requests fixed-size pages (`per_page = 100`)
starting at page 1 and increments the page number until a page returns
zero items; the stub with page sizes [100, 100, 37, 0] yields exactly 237
items in concatenated order with exactly 4 requests, and a first page of
size 0 yields an empty result with exactly 1 request. -/
theorem pagination_spec :
    (∀ (L : List (List String)) (ep : Endpoint) (fuel : Nat),
        (∀ pl ∈ L, pl ≠ []) → L.length + 1 ≤ fuel →
        get_paginated_data (pagesOfList L) ep fuel =
          some (.ok L.flatten,
            (List.range (L.length + 1)).map (fun i => ⟨ep, 100, 1 + i⟩), []))
    ∧ get_paginated_data (pagesOfList stub237) .followers 4 =
        some (.ok stub237.flatten,
          [⟨.followers, 100, 1⟩, ⟨.followers, 100, 2⟩,
           ⟨.followers, 100, 3⟩, ⟨.followers, 100, 4⟩], [])
    ∧ stub237.flatten.length = 237
    ∧ (stubPage 0 100).length = 100 ∧ (stubPage 100 100).length = 100
    ∧ (stubPage 200 37).length = 37
    ∧ get_paginated_data (pagesOfList []) .followers 1 =
        some (.ok [], [⟨.followers, 100, 1⟩], []) := by
  refine ⟨?_, by rfl, by rfl, by rfl, by rfl, by rfl, by rfl⟩
  intro L ep fuel hne hfuel
  obtain ⟨k, rfl⟩ : ∃ k, fuel = k + L.length + 1 := ⟨fuel - (L.length + 1), by omega⟩
  exact get_paginated_data_pagesOfList L ep k hne

/-- Witness for C3's universally quantified part at a concrete input. -/
theorem pagination_spec_witness :
    get_paginated_data (pagesOfList [["a"]]) Endpoint.followers 2 =
      some (.ok [["a"]].flatten,
        (List.range ([["a"]].length + 1)).map (fun i => ⟨Endpoint.followers, 100, 1 + i⟩),
        []) :=
  pagination_spec.1 [["a"]] Endpoint.followers 2 (by decide) (by decide)

/-- Claim C4: a page request failing with 404 makes the whole fetch fail
with the not-found outcome (`return None` plus the dedicated user-not-found
message, distinct from the generic HTTP-error message), discarding the
pages already fetched in that call, and the calling getter then caches an
empty list. -/
theorem fetch_notFound_spec :
    (∀ (L : List (List String)) (status : Nat) (ep : Endpoint) (fuel : Nat),
        (∀ pl ∈ L, pl ≠ []) → L.length + 1 ≤ fuel →
        get_paginated_data (pagesThenError L status) ep fuel =
          some (.noneResult,
            (List.range (L.length + 1)).map (fun i => ⟨ep, 100, 1 + i⟩),
            [if status == 404 then Msg.userNotFound else Msg.httpErrorMsg]))
    ∧ Msg.userNotFound ≠ Msg.httpErrorMsg
    ∧ get_followers ⟨pagesThenError [] 404, pagesOfList []⟩ initState 1 =
        some (.ok (some []), ⟨some [], none⟩, [⟨.followers, 100, 1⟩],
          [.fetchingFollowers, .userNotFound]) := by
  refine ⟨?_, by decide, by rfl⟩
  intro L status ep fuel hne hfuel
  obtain ⟨k, rfl⟩ : ∃ k, fuel = k + L.length + 1 := ⟨fuel - (L.length + 1), by omega⟩
  exact get_paginated_data_pagesThenError L status ep k hne

/-- Witness for C4's universally quantified part: one non-empty page
followed by a 404. -/
theorem fetch_notFound_spec_witness :
    get_paginated_data (pagesThenError [["a"]] 404) Endpoint.followers 2 =
      some (.noneResult,
        (List.range ([["a"]].length + 1)).map (fun i => ⟨Endpoint.followers, 100, 1 + i⟩),
        [if (404 : Nat) == 404 then Msg.userNotFound else Msg.httpErrorMsg]) :=
  fetch_notFound_spec.1 [["a"]] 404 Endpoint.followers 2 (by decide) (by decide)

/-- Claim C2 (code bug, flagged by the spec itself as a latent bug): with
the following fetch succeeding as `["alice"]` and the followers fetch
failing (404, cached as `[]`), `find_non_followers` returns the entire
following list `["alice"]` — a diff computed from the failed (empty)
followers data — instead of the empty sequence the claim requires. -/
theorem find_non_followers_failed_fetch_eval :
    find_non_followers envFollowersFail initState 3 =
      some (.ok (["alice"], false), ⟨some [], some ["alice"]⟩,
        [⟨.following, 100, 1⟩, ⟨.following, 100, 2⟩, ⟨.followers, 100, 1⟩],
        [.fetchingFollowing, .fetchingFollowers, .userNotFound])
    ∧ ["alice"] ≠ ([] : List String) := ⟨rfl, by decide⟩

/-- Claim C8 counterexample: the output of `fans` inherits the *followers*
list's order, not the "following" list's fetch order — with
following = ["b"] and followers = ["y", "x"] the result ["y", "x"] is not
a subsequence of the following list; and with a duplicated source entry
the output of `nonFollowers` contains duplicates. -/
theorem diff_order_counterexample :
    fans ["b"] ["y", "x"] = ["y", "x"]
    ∧ ¬ (fans ["b"] ["y", "x"]).Sublist ["b"]
    ∧ nonFollowers ["a", "a"] [] = ["a", "a"]
    ∧ ¬ (nonFollowers ["a", "a"] []).Nodup := by
  refine ⟨by decide, ?_, by decide, by decide⟩
  intro h
  have hlen := h.length_le
  rw [show fans ["b"] ["y", "x"] = ["y", "x"] from by decide] at hlen
  simp at hlen

/-- Claim C8 amended: each difference result inherits the order of the
list it iterates over — `nonFollowers` is a sublist of `following`, `fans`
a sublist of `followers` (not sorted) — and has no duplicates provided its
iteration source has none (which the API contract guarantees). -/
theorem diff_order_nodup_amended :
    (∀ following followers : List String,
        (nonFollowers following followers).Sublist following)
    ∧ (∀ following followers : List String,
        (fans following followers).Sublist followers)
    ∧ (∀ following followers : List String,
        following.Nodup → (nonFollowers following followers).Nodup)
    ∧ (∀ following followers : List String,
        followers.Nodup → (fans following followers).Nodup) := by
  refine ⟨fun fg fr => List.filter_sublist fg, fun fg fr => List.filter_sublist fr, ?_, ?_⟩
  · intro fg fr h
    exact List.Nodup.filter _ h
  · intro fg fr h
    exact List.Nodup.filter _ h

/-- Witness for C8's amended claim at a concrete input. -/
theorem diff_order_nodup_amended_witness :
    (nonFollowers ["a", "b"] ["b"]).Nodup :=
  diff_order_nodup_amended.2.2.1 ["a", "b"] ["b"] (by decide)

/-- Normal returns of `get_followers` always carry a real list (never the
Python `None`), and the returned list is exactly what is now cached. -/
theorem get_followers_ok_shape (env : Env) (s : AnalyzerState) (fuel : Nat)
    (v : Option (List String)) (s2 : AnalyzerState) (reqs : List Req) (msgs : List Msg)
    (h : get_followers env s fuel = some (.ok v, s2, reqs, msgs)) :
    ∃ l, v = some l ∧ s2.followers = some l ∧ s2.following = s.following := by
  unfold get_followers at h
  cases hs : s.followers with
  | some cached =>
    rw [hs] at h
    obtain ⟨h1, h2, h3, h4⟩ := by simpa using h
    exact ⟨cached, by simp [h1.symm], by simp [← h2, hs], by simp [← h2]⟩
  | none =>
    rw [hs] at h
    cases hfd : get_paginated_data env.followersPages .followers fuel with
    | none => rw [hfd] at h; simp at h
    | some r =>
      obtain ⟨fr, reqs1, msgs1⟩ := r
      rw [hfd] at h
      cases fr with
      | ok items =>
        obtain ⟨h1, h2, h3, h4⟩ := by simpa using h
        exact ⟨items, h1.symm, by simp [← h2], by simp [← h2]⟩
      | noneResult =>
        obtain ⟨h1, h2, h3, h4⟩ := by simpa using h
        exact ⟨[], h1.symm, by simp [← h2], by simp [← h2]⟩
      | raised e => simp at h

/-- Symmetric shape lemma for `get_following`. -/
theorem get_following_ok_shape (env : Env) (s : AnalyzerState) (fuel : Nat)
    (v : Option (List String)) (s2 : AnalyzerState) (reqs : List Req) (msgs : List Msg)
    (h : get_following env s fuel = some (.ok v, s2, reqs, msgs)) :
    ∃ l, v = some l ∧ s2.following = some l ∧ s2.followers = s.followers := by
  unfold get_following at h
  cases hs : s.following with
  | some cached =>
    rw [hs] at h
    obtain ⟨h1, h2, h3, h4⟩ := by simpa using h
    exact ⟨cached, by simp [h1.symm], by simp [← h2, hs], by simp [← h2]⟩
  | none =>
    rw [hs] at h
    cases hfd : get_paginated_data env.followingPages .following fuel with
    | none => rw [hfd] at h; simp at h
    | some r =>
      obtain ⟨fr, reqs1, msgs1⟩ := r
      rw [hfd] at h
      cases fr with
      | ok items =>
        obtain ⟨h1, h2, h3, h4⟩ := by simpa using h
        exact ⟨items, h1.symm, by simp [← h2], by simp [← h2]⟩
      | noneResult =>
        obtain ⟨h1, h2, h3, h4⟩ := by simpa using h
        exact ⟨[], h1.symm, by simp [← h2], by simp [← h2]⟩
      | raised e => simp at h

/-- A cache hit: if `self._followers` is already a list, `get_followers`
returns it unchanged with no requests and no messages. -/
theorem get_followers_cached (env : Env) (s : AnalyzerState) (fuel : Nat)
    (l : List String) (h : s.followers = some l) :
    get_followers env s fuel = some (.ok (some l), s, [], []) := by
  unfold get_followers
  rw [h]

/-- A cache hit for `get_following`. -/
theorem get_following_cached (env : Env) (s : AnalyzerState) (fuel : Nat)
    (l : List String) (h : s.following = some l) :
    get_following env s fuel = some (.ok (some l), s, [], []) := by
  unfold get_following
  rw [h]

/-- Claim C7: after any normal (non-raising) `get_followers` /
`get_following` call the returned list is cached, and every subsequent
call for the same relation kind — under any environment and any fuel —
returns the same value, the same state, and issues no network requests;
a cache hit never issues requests. -/
theorem cache_idempotence_spec :
    (∀ (env : Env) (s : AnalyzerState) (fuel : Nat) (l : List String),
        s.followers = some l →
        get_followers env s fuel = some (.ok (some l), s, [], []))
    ∧ (∀ (env env2 : Env) (s s2 : AnalyzerState) (fuel fuel2 : Nat)
          (v : Option (List String)) (reqs : List Req) (msgs : List Msg),
        get_followers env s fuel = some (.ok v, s2, reqs, msgs) →
        s2.followers = v ∧
          get_followers env2 s2 fuel2 = some (.ok v, s2, [], []))
    ∧ (∀ (env : Env) (s : AnalyzerState) (fuel : Nat) (l : List String),
        s.following = some l →
        get_following env s fuel = some (.ok (some l), s, [], []))
    ∧ (∀ (env env2 : Env) (s s2 : AnalyzerState) (fuel fuel2 : Nat)
          (v : Option (List String)) (reqs : List Req) (msgs : List Msg),
        get_following env s fuel = some (.ok v, s2, reqs, msgs) →
        s2.following = v ∧
          get_following env2 s2 fuel2 = some (.ok v, s2, [], [])) := by
  refine ⟨get_followers_cached, ?_, get_following_cached, ?_⟩
  · intro env env2 s s2 fuel fuel2 v reqs msgs h
    obtain ⟨l, rfl, hcache, _⟩ := get_followers_ok_shape env s fuel v s2 reqs msgs h
    exact ⟨hcache, get_followers_cached env2 s2 fuel2 l hcache⟩
  · intro env env2 s s2 fuel fuel2 v reqs msgs h
    obtain ⟨l, rfl, hcache, _⟩ := get_following_ok_shape env s fuel v s2 reqs msgs h
    exact ⟨hcache, get_following_cached env2 s2 fuel2 l hcache⟩

/-- Witness for C7: a successful uncached fetch followed by a cache hit. -/
theorem cache_idempotence_spec_witness :
    (⟨some [], none⟩ : AnalyzerState).followers = some [] ∧
      get_followers ⟨pagesOfList [], pagesOfList []⟩ (⟨some [], none⟩ : AnalyzerState) 1 =
        some (.ok (some []), (⟨some [], none⟩ : AnalyzerState), [], []) :=
  ⟨rfl, cache_idempotence_spec.1 ⟨pagesOfList [], pagesOfList []⟩ ⟨some [], none⟩ 1 [] rfl⟩

/-- Claim C10: the getters never return the Python `None` on a normal
return — the failure branch caches `[]` — so the `is None` guard branches
in `find_non_followers` and `find_fans` are never taken (the recorded
branch flag is always `false`). -/
theorem getters_never_none_spec :
    (∀ (env : Env) (s : AnalyzerState) (fuel : Nat) (v : Option (List String))
        (s2 : AnalyzerState) (reqs : List Req) (msgs : List Msg),
        get_followers env s fuel = some (.ok v, s2, reqs, msgs) → v.isSome = true)
    ∧ (∀ (env : Env) (s : AnalyzerState) (fuel : Nat) (v : Option (List String))
        (s2 : AnalyzerState) (reqs : List Req) (msgs : List Msg),
        get_following env s fuel = some (.ok v, s2, reqs, msgs) → v.isSome = true)
    ∧ (∀ (env : Env) (s : AnalyzerState) (fuel : Nat) (r : List String) (b : Bool)
        (s2 : AnalyzerState) (reqs : List Req) (msgs : List Msg),
        find_non_followers env s fuel = some (.ok (r, b), s2, reqs, msgs) → b = false)
    ∧ (∀ (env : Env) (s : AnalyzerState) (fuel : Nat) (r : List String) (b : Bool)
        (s2 : AnalyzerState) (reqs : List Req) (msgs : List Msg),
        find_fans env s fuel = some (.ok (r, b), s2, reqs, msgs) → b = false) := by
  have hfr : ∀ (env : Env) (s : AnalyzerState) (fuel : Nat) (v : Option (List String))
      (s2 : AnalyzerState) (reqs : List Req) (msgs : List Msg),
      get_followers env s fuel = some (.ok v, s2, reqs, msgs) → v.isSome = true := by
    intro env s fuel v s2 reqs msgs h
    obtain ⟨l, rfl, -, -⟩ := get_followers_ok_shape env s fuel v s2 reqs msgs h
    rfl
  have hfg : ∀ (env : Env) (s : AnalyzerState) (fuel : Nat) (v : Option (List String))
      (s2 : AnalyzerState) (reqs : List Req) (msgs : List Msg),
      get_following env s fuel = some (.ok v, s2, reqs, msgs) → v.isSome = true := by
    intro env s fuel v s2 reqs msgs h
    obtain ⟨l, rfl, -, -⟩ := get_following_ok_shape env s fuel v s2 reqs msgs h
    rfl
  refine ⟨hfr, hfg, ?_, ?_⟩
  · intro env s fuel r b s2 reqs msgs h
    unfold find_non_followers at h
    split at h
    · simp at h
    · simp at h
    · rename_i followingV s1 reqs1 msgs1 h1
      split at h
      · simp at h
      · simp at h
      · rename_i followersV s2a reqs2 msgs2 h2
        obtain ⟨l1, rfl, -, -⟩ := get_following_ok_shape env s fuel followingV s1 reqs1 msgs1 h1
        obtain ⟨l2, rfl, -, -⟩ := get_followers_ok_shape env s1 fuel followersV s2a reqs2 msgs2 h2
        simp at h
        exact h.1.2
  · intro env s fuel r b s2 reqs msgs h
    unfold find_fans at h
    split at h
    · simp at h
    · simp at h
    · rename_i followingV s1 reqs1 msgs1 h1
      split at h
      · simp at h
      · simp at h
      · rename_i followersV s2a reqs2 msgs2 h2
        obtain ⟨l1, rfl, -, -⟩ := get_following_ok_shape env s fuel followingV s1 reqs1 msgs1 h1
        obtain ⟨l2, rfl, -, -⟩ := get_followers_ok_shape env s1 fuel followersV s2a reqs2 msgs2 h2
        simp at h
        exact h.1.2

/-- Witness for C10 at a concrete input. -/
theorem getters_never_none_spec_witness :
    (some ([] : List String)).isSome = true :=
  getters_never_none_spec.1 ⟨pagesOfList [], pagesOfList []⟩ initState 1 (some [])
    ⟨some [], none⟩ [⟨.followers, 100, 1⟩] [.fetchingFollowers] rfl

/-- Claim C5 counterexample: a transport-level request failure is *not*
caught at the fetch boundary — only `requests.exceptions.HTTPError` is
caught — so the raw exception propagates to the caller of `get_followers`
and no empty result is cached (the cache slot stays unfetched), contrary
to the claim that every non-404 failure is converted into an empty cached
result and that callers never observe a raw transport exception. -/
theorem transport_error_uncaught_counterexample :
    get_followers ⟨fun _ => PageResult.transportError, pagesOfList []⟩ initState 1 =
      some (.error .requestException, initState, [⟨.followers, 100, 1⟩],
        [.fetchingFollowers])
    ∧ initState.followers = none
    ∧ ∀ v : Option (List String),
        Except.error PyExc.requestException ≠
          (Except.ok v : Except PyExc (Option (List String))) :=
  ⟨rfl, rfl, fun _ h => Except.noConfusion h⟩

/-- Claim C5 amended: only failures surfacing as `requests.exceptions.HTTPError`
(an HTTP error status, e.g. any non-2xx other than 404) are caught at the
fetch boundary and converted into an empty cached result with the generic
error message; a transport error or a malformed (unparseable) body raises
an uncaught exception that propagates past the fetcher to its callers,
yielding no partial result but also leaving the cache slot unfetched. -/
theorem fetch_error_handling_amended :
    (∀ (status : Nat) (g : Nat → PageResult), status ≠ 404 →
        get_followers ⟨fun _ => PageResult.httpError status, g⟩ initState 1 =
          some (.ok (some []), ⟨some [], none⟩, [⟨.followers, 100, 1⟩],
            [.fetchingFollowers, .httpErrorMsg]))
    ∧ (∀ g : Nat → PageResult,
        get_followers ⟨fun _ => PageResult.transportError, g⟩ initState 1 =
          some (.error .requestException, initState, [⟨.followers, 100, 1⟩],
            [.fetchingFollowers]))
    ∧ (∀ g : Nat → PageResult,
        get_followers ⟨fun _ => PageResult.malformed, g⟩ initState 1 =
          some (.error .jsonDecodeError, initState, [⟨.followers, 100, 1⟩],
            [.fetchingFollowers]))
    ∧ find_non_followers ⟨fun _ => PageResult.transportError, pagesOfList []⟩ initState 1 =
        some (.error .requestException, ⟨none, some []⟩,
          [⟨.following, 100, 1⟩, ⟨.followers, 100, 1⟩],
          [.fetchingFollowing, .fetchingFollowers]) := by
  refine ⟨?_, fun g => rfl, fun g => rfl, rfl⟩
  intro status g h
  have h404 : (status == 404) = false := by simpa using h
  simp [get_followers, get_paginated_data, get_paginated_data_loop, h404, initState]

/-- Witness for C5's amended claim at status 500. -/
theorem fetch_error_handling_amended_witness :
    get_followers ⟨fun _ => PageResult.httpError 500, pagesOfList []⟩ initState 1 =
      some (.ok (some []), ⟨some [], none⟩, [⟨.followers, 100, 1⟩],
        [.fetchingFollowers, .httpErrorMsg]) :=
  fetch_error_handling_amended.1 500 (pagesOfList []) (by decide)

/-- An ASCII alphanumeric character is not a hyphen. -/
theorem isAlnumAscii_ne_hyphen {c : Char} (h : isAlnumAscii c = true) :
    (c == '-') = false := by
  cases hb : c == '-' with
  | false => rfl
  | true =>
    have hc : c = '-' := beq_iff_eq.mp hb
    subst hc
    exact absurd h (by decide)

/-- An ASCII alphanumeric character is not a newline. -/
theorem isAlnumAscii_ne_newline {c : Char} (h : isAlnumAscii c = true) :
    (c == '\n') = false := by
  cases hb : c == '\n' with
  | false => rfl
  | true =>
    have hc : c = '\n' := beq_iff_eq.mp hb
    subst hc
    exact absurd h (by decide)

theorem noTrailHyphen_cons_cons (c d : Char) (r : List Char) :
    noTrailHyphen (c :: d :: r) = noTrailHyphen (d :: r) := by
  simp [noTrailHyphen, List.getLast?_cons_cons]

theorem noTrailHyphen_single (c : Char) : noTrailHyphen [c] = !(c == '-') := by
  simp [noTrailHyphen]

theorem noDoubleHyphen_cons_cons (c d : Char) (r : List Char) :
    noDoubleHyphen (c :: d :: r) = (!(c == '-' && d == '-') && noDoubleHyphen (d :: r)) := rfl

theorem noDoubleHyphen_single (c : Char) : noDoubleHyphen [c] = true := rfl

theorem tailOk0_single (c : Char) :
    tailOk0 [c] = (if isAlnumAscii c then true
      else if c == '-' then false else false) := rfl

theorem tailOk0_cons_cons (c d : Char) (r2 : List Char) :
    tailOk0 (c :: d :: r2) =
      (if isAlnumAscii c then tailOk0 (d :: r2)
       else if c == '-' then isAlnumAscii d && tailOk0 (d :: r2)
       else false) := rfl

/-- The regex body check coincides with the grammar-style description:
all characters alphanumeric or hyphen, no trailing hyphen, no double
hyphen. -/
theorem tailOk0_eq : ∀ b : List Char,
    tailOk0 b = (b.all (fun d => isAlnumAscii d || d == '-') &&
      noTrailHyphen b && noDoubleHyphen b) := by
  intro b
  induction b with
  | nil => rfl
  | cons c rest IH =>
    cases rest with
    | nil =>
      rw [tailOk0_single]
      by_cases ha : isAlnumAscii c
      · rw [if_pos ha]
        simp [noTrailHyphen_single, noDoubleHyphen_single, ha, isAlnumAscii_ne_hyphen ha]
      · rw [if_neg ha]
        by_cases hh : c == '-' <;>
          simp [ha, hh, noTrailHyphen_single, noDoubleHyphen_single, List.all_cons]
    | cons d r2 =>
      rw [tailOk0_cons_cons]
      by_cases ha : isAlnumAscii c
      · rw [if_pos ha, IH, noTrailHyphen_cons_cons, noDoubleHyphen_cons_cons]
        simp [List.all_cons, ha, isAlnumAscii_ne_hyphen ha,
          Bool.and_assoc, Bool.and_left_comm, Bool.and_comm]
      · rw [if_neg ha]
        by_cases hh : c == '-'
        · rw [if_pos hh, IH, noTrailHyphen_cons_cons, noDoubleHyphen_cons_cons]
          by_cases hd : isAlnumAscii d
          · simp [List.all_cons, hd, hh, isAlnumAscii_ne_hyphen hd,
              Bool.and_assoc, Bool.and_left_comm, Bool.and_comm]
          · by_cases hdh : d == '-' <;>
              simp [List.all_cons, ha, hd, hh, hdh,
                Bool.and_assoc, Bool.and_left_comm, Bool.and_comm]
        · rw [if_neg hh]
          simp [List.all_cons, ha, hh]

theorem matchRest_zero (r : List Char) : matchRest r 0 = dollarOk r := by
  cases r <;> rfl

theorem matchRest_nil (n : Nat) : matchRest [] n = true := by
  cases n <;> rfl

theorem matchRest_succ_single (c : Char) (n : Nat) :
    matchRest [c] (n + 1) =
      (if c == '\n' then true
       else if isAlnumAscii c then matchRest [] n
       else if c == '-' then false
       else false) := rfl

theorem matchRest_succ_cons_cons (c d : Char) (r2 : List Char) (n : Nat) :
    matchRest (c :: d :: r2) (n + 1) =
      (if isAlnumAscii c then matchRest (d :: r2) n
       else if c == '-' then isAlnumAscii d && matchRest (d :: r2) n
       else false) := rfl

theorem splitNl_single (c : Char) :
    splitNl [c] = (if c == '\n' then some [] else none) := rfl

theorem splitNl_cons_cons (c d : Char) (r : List Char) :
    splitNl (c :: d :: r) =
      (match splitNl (d :: r) with
       | some b => some (c :: b)
       | none => none) := rfl

theorem tailOk0_cons_alnum {c : Char} (ha : isAlnumAscii c = true) (b : List Char) :
    tailOk0 (c :: b) = tailOk0 b := by
  cases b with
  | nil => simp [tailOk0_single, ha, tailOk0]
  | cons e b2 => rw [tailOk0_cons_cons, if_pos ha]

theorem tailOk0_cons_bad {c : Char} (ha : isAlnumAscii c = false)
    (hh : (c == '-') = false) (b : List Char) : tailOk0 (c :: b) = false := by
  cases b with
  | nil => simp [tailOk0_single, ha, hh]
  | cons e b2 => rw [tailOk0_cons_cons]; simp [ha, hh]

theorem splitNl_single_some {c : Char} {b : List Char} (h : splitNl [c] = some b) :
    c = '\n' ∧ b = [] := by
  by_cases hnl : c == '\n'
  · refine ⟨beq_iff_eq.mp hnl, ?_⟩
    rw [splitNl_single, if_pos hnl] at h
    simpa using h.symm
  · rw [splitNl_single, if_neg hnl] at h
    simp at h

theorem splitNl_cons_cons_some {c d : Char} {r2 b : List Char}
    (h : splitNl (c :: d :: r2) = some b) :
    ∃ b2, splitNl (d :: r2) = some b2 ∧ b = c :: b2 := by
  rw [splitNl_cons_cons] at h
  cases hsp : splitNl (d :: r2) with
  | none => rw [hsp] at h; simp at h
  | some b2 => rw [hsp] at h; simp at h; exact ⟨b2, rfl, h.symm⟩

/-- The regex remainder matches with budget `n` iff the regex body check
succeeds on the whole remainder within the budget, or on the remainder
with one trailing newline stripped (the Python `$`-before-final-newline
behaviour). -/
theorem matchRest_eq : ∀ (r : List Char) (n : Nat),
    matchRest r n =
      ((decide (r.length ≤ n) && tailOk0 r) ||
        (match splitNl r with
         | some b => decide (b.length ≤ n) && tailOk0 b
         | none => false)) := by
  intro r
  induction r with
  | nil =>
    intro n
    cases n <;> simp [matchRest, dollarOk, splitNl, tailOk0]
  | cons c rest IH =>
    intro n
    cases rest with
    | nil =>
      cases n with
      | zero =>
        by_cases hnl : c == '\n'
        · have hc : c = '\n' := beq_iff_eq.mp hnl
          subst hc
          decide
        · simp [matchRest_zero, dollarOk, hnl, splitNl_single]
      | succ n =>
        by_cases hnl : c == '\n'
        · have hc : c = '\n' := beq_iff_eq.mp hnl
          subst hc
          simp [matchRest_succ_single, splitNl_single, tailOk0]
        · simp [matchRest_succ_single, hnl, matchRest_nil, splitNl_single,
            tailOk0_single, Nat.succ_le_succ_iff]
    | cons d r2 =>
      cases n with
      | zero =>
        rw [matchRest_zero]
        cases hsp : splitNl (d :: r2) with
        | none => simp [dollarOk, splitNl_cons_cons, hsp]
        | some b => simp [dollarOk, splitNl_cons_cons, hsp]
      | succ n =>
        rw [matchRest_succ_cons_cons]
        by_cases ha : isAlnumAscii c
        · rw [if_pos ha, IH]
          rw [tailOk0_cons_alnum ha, splitNl_cons_cons]
          cases hsp : splitNl (d :: r2) with
          | none => simp [Nat.succ_le_succ_iff]
          | some b =>
            simp only [hsp]
            rw [tailOk0_cons_alnum ha]
            simp [Nat.succ_le_succ_iff]
        · have ha' : isAlnumAscii c = false := eq_false_of_ne_true ha
          rw [if_neg ha]
          by_cases hh : c == '-'
          · rw [if_pos hh, IH]
            rw [show tailOk0 (c :: d :: r2) = (isAlnumAscii d && tailOk0 (d :: r2)) from by
              rw [tailOk0_cons_cons]; simp [ha', hh]]
            rw [splitNl_cons_cons]
            cases hsp : splitNl (d :: r2) with
            | none =>
              simp [Nat.succ_le_succ_iff, Bool.and_or_distrib_left,
                Bool.and_assoc, Bool.and_left_comm, Bool.and_comm]
            | some b =>
              simp only [hsp]
              cases r2 with
              | nil =>
                obtain ⟨hd, rfl⟩ := splitNl_single_some hsp
                subst hd
                simp [tailOk0_single, ha', hh, tailOk0,
                  show isAlnumAscii '\n' = false from by decide]
              | cons e r3 =>
                obtain ⟨b2, hsp2, rfl⟩ := splitNl_cons_cons_some hsp
                rw [show tailOk0 (c :: d :: b2) = (isAlnumAscii d && tailOk0 (d :: b2)) from by
                  rw [tailOk0_cons_cons]; simp [ha', hh]]
                simp [Nat.succ_le_succ_iff, Bool.and_or_distrib_left,
                  Bool.and_assoc, Bool.and_left_comm, Bool.and_comm]
          · have hh' : (c == '-') = false := eq_false_of_ne_true hh
            rw [if_neg hh]
            rw [tailOk0_cons_bad ha' hh', splitNl_cons_cons]
            cases hsp : splitNl (d :: r2) with
            | none => simp
            | some b =>
              simp only [hsp]
              rw [tailOk0_cons_bad ha' hh']
              simp

/-- The spec grammar on a non-empty string, expressed through the regex
body check: alphanumeric head, at most 38 further characters, body ok. -/
theorem specGrammar_cons (c : Char) (r : List Char) :
    specGrammar (c :: r) = (isAlnumAscii c && decide (r.length ≤ 38) && tailOk0 r) := by
  rw [tailOk0_eq]
  cases r with
  | nil =>
    by_cases ha : isAlnumAscii c
    · simp [specGrammar, ha, isAlnumAscii_ne_hyphen ha, noDoubleHyphen, noTrailHyphen]
    · by_cases hh : c == '-' <;>
        simp [specGrammar, ha, hh, noDoubleHyphen, noTrailHyphen]
  | cons d r2 =>
    cases hl : (d :: r2).getLast? with
    | none => exact absurd hl (by simp)
    | some x =>
      by_cases ha : isAlnumAscii c
      · simp [specGrammar, List.all_cons, ha, isAlnumAscii_ne_hyphen ha,
          noDoubleHyphen_cons_cons, noTrailHyphen, List.getLast?_cons_cons, hl,
          Nat.succ_le_succ_iff, Bool.and_assoc, Bool.and_left_comm, Bool.and_comm]
      · by_cases hh : c == '-' <;>
          simp [specGrammar, List.all_cons, ha, hh, noDoubleHyphen_cons_cons,
            noTrailHyphen, List.getLast?_cons_cons, hl, Nat.succ_le_succ_iff,
            Bool.and_assoc, Bool.and_left_comm, Bool.and_comm]

theorem splitNl_eq_some_iff : ∀ (s b : List Char), splitNl s = some b ↔ s = b ++ ['\n'] := by
  intro s
  induction s with
  | nil =>
    intro b
    constructor
    · intro h; simp [splitNl] at h
    · intro h; exact absurd h (by simp)
  | cons c rest IH =>
    intro b
    cases rest with
    | nil =>
      constructor
      · intro h
        obtain ⟨rfl, rfl⟩ := splitNl_single_some h
        rfl
      · intro h
        cases b with
        | nil =>
          simp at h
          subst h
          rw [splitNl_single]
          simp
        | cons e b2 =>
          have := congrArg List.length h
          simp at this
    | cons d r2 =>
      constructor
      · intro h
        obtain ⟨b2, hsp2, rfl⟩ := splitNl_cons_cons_some h
        have := (IH b2).mp hsp2
        simp [this]
      · intro h
        cases b with
        | nil =>
          have := congrArg List.length h
          simp at this
        | cons e b2 =>
          simp only [List.cons_append, List.cons.injEq] at h
          obtain ⟨rfl, h2⟩ := h
          rw [splitNl_cons_cons, (IH b2).mpr h2]

/-- Claim C6 counterexample: Python's `$` also matches just before a
trailing newline, so `validate_username` accepts the string "abc\n" even
though it contains a character that the account-identifier grammar
disallows (the claim requires every string with a disallowed character to
be rejected). -/
theorem validate_username_counterexample :
    validate_username "abc\n".data = true
    ∧ specGrammar "abc\n".data = false
    ∧ ("abc\n".data.all (fun d => isAlnumAscii d || d == '-')) = false := by
  exact ⟨by decide, by decide, by decide⟩

/-- Claim C6 amended: `validate` accepts a string iff it conforms to the
account-identifier grammar (1–39 characters, alphanumerics and single
internal hyphens, no leading or trailing hyphen) *or* it is such a
grammar-conforming string followed by one trailing newline (an artifact
of Python's `$` anchor).  All of the claim's rejection families that do
not involve a trailing newline still hold: empty, length 40, leading or
trailing hyphen, double hyphen, other disallowed characters. -/
theorem validate_username_spec_amended :
    (∀ s : List Char, validate_username s = true ↔
        (specGrammar s = true ∨ ∃ b, s = b ++ ['\n'] ∧ specGrammar b = true))
    ∧ validate_username [] = false
    ∧ validate_username (List.replicate 40 'a') = false
    ∧ validate_username (List.replicate 39 'a') = true
    ∧ validate_username "-a".data = false
    ∧ validate_username "a-".data = false
    ∧ validate_username "a--b".data = false
    ∧ validate_username "a_b".data = false
    ∧ validate_username "a-b".data = true := by
  refine ⟨?_, by decide, by decide, by decide, by decide, by decide, by decide,
    by decide, by decide⟩
  intro s
  cases s with
  | nil =>
    constructor
    · intro h; exact absurd h (by decide)
    · intro h
      rcases h with h | ⟨b, hb, hg⟩
      · exact absurd h (by decide)
      · exact absurd hb (by simp)
  | cons c r =>
    rw [show validate_username (c :: r) = (isAlnumAscii c && matchRest r 38) from rfl]
    rw [matchRest_eq]
    constructor
    · intro h
      simp only [Bool.and_eq_true, Bool.or_eq_true] at h
      obtain ⟨ha, h2⟩ := h
      rcases h2 with h2 | h2
      · left
        rw [specGrammar_cons]
        simp only [Bool.and_eq_true] at h2 ⊢
        exact ⟨⟨ha, h2.1⟩, h2.2⟩
      · cases hsp : splitNl r with
        | none => rw [hsp] at h2; simp at h2
        | some b =>
          rw [hsp] at h2
          right
          refine ⟨c :: b, ?_, ?_⟩
          · have := (splitNl_eq_some_iff r b).mp hsp
            simp [this]
          · rw [specGrammar_cons]
            simp only [Bool.and_eq_true] at h2 ⊢
            exact ⟨⟨ha, h2.1⟩, h2.2⟩
    · intro h
      rcases h with h | ⟨b, hb, hg⟩
      · rw [specGrammar_cons] at h
        simp only [Bool.and_eq_true] at h
        simp only [Bool.and_eq_true, Bool.or_eq_true]
        exact ⟨h.1.1, Or.inl (by simp [h.1.2, h.2])⟩
      · cases b with
        | nil => exact absurd hg (by decide)
        | cons e b2 =>
          simp only [List.cons_append, List.cons.injEq] at hb
          obtain ⟨rfl, hr⟩ := hb
          rw [specGrammar_cons] at hg
          simp only [Bool.and_eq_true] at hg
          have hsp : splitNl r = some b2 := (splitNl_eq_some_iff r b2).mpr hr
          rw [hsp]
          simp only [Bool.and_eq_true, Bool.or_eq_true]
          exact ⟨hg.1.1, Or.inr ⟨hg.1.2, hg.2⟩⟩

/-- Witness for C6's amended equivalence at a concrete accepted string. -/
theorem validate_username_spec_amended_witness :
    validate_username "a-b".data = true ↔
      (specGrammar "a-b".data = true ∨
        ∃ b, "a-b".data = b ++ ['\n'] ∧ specGrammar b = true) :=
  validate_username_spec_amended.1 "a-b".data

/-- Characters of an account identifier lie in the ASCII ranges
hyphen/digits/upper/lower. -/
theorem goodChar_ranges {c : Char} (h : (isAlnumAscii c || c == '-') = true) :
    (45 ≤ c.toNat ∧ c.toNat ≤ 57) ∨ (65 ≤ c.toNat ∧ c.toNat ≤ 90) ∨
      (97 ≤ c.toNat ∧ c.toNat ≤ 122) := by
  simp only [Bool.or_eq_true] at h
  rcases h with h | h
  · simp only [isAlnumAscii, Bool.or_eq_true, Bool.and_eq_true, decide_eq_true_eq] at h
    omega
  · have hc : c = '-' := beq_iff_eq.mp h
    subst hc
    decide

/-- Identifier characters are emitted verbatim by the JSON escaper. -/
theorem escapeJsonChar_good {c : Char} (h : (isAlnumAscii c || c == '-') = true) :
    escapeJsonChar c = [c] := by
  have hn := goodChar_ranges h
  unfold escapeJsonChar
  rw [if_neg (by intro hq; subst hq; exact absurd hn (by decide)),
    if_neg (by intro hq; subst hq; exact absurd hn (by decide)),
    if_neg (by intro hq; subst hq; exact absurd hn (by decide)),
    if_neg (by intro hq; subst hq; exact absurd hn (by decide)),
    if_neg (by intro hq; subst hq; exact absurd hn (by decide)),
    if_neg (by intro hq; subst hq; exact absurd hn (by decide)),
    if_neg (by intro hq; subst hq; exact absurd hn (by decide)),
    if_neg (by omega)]

theorem escape_map_id {cs : List Char}
    (h : ∀ c ∈ cs, (isAlnumAscii c || c == '-') = true) :
    (cs.map escapeJsonChar).flatten = cs := by
  induction cs with
  | nil => rfl
  | cons c rest IH =>
    rw [List.map_cons, List.flatten_cons, escapeJsonChar_good (h c (by simp)),
      IH (fun d hd => h d (by simp [hd]))]
    rfl

/-- Identifier characters are not JSON string/array structure characters
and not whitespace. -/
theorem goodChar_facts {c : Char} (h : (isAlnumAscii c || c == '-') = true) :
    c ≠ '"' ∧ c ≠ '\\' ∧ isJsonWs c = false := by
  have hn := goodChar_ranges h
  refine ⟨by intro hq; subst hq; exact absurd hn (by decide),
    by intro hq; subst hq; exact absurd hn (by decide), ?_⟩
  have h1 : c ≠ ' ' := by intro hq; subst hq; exact absurd hn (by decide)
  have h2 : c ≠ '\n' := by intro hq; subst hq; exact absurd hn (by decide)
  have h3 : c ≠ '\t' := by intro hq; subst hq; exact absurd hn (by decide)
  have h4 : c ≠ '\r' := by intro hq; subst hq; exact absurd hn (by decide)
  simp [isJsonWs, h1, h2, h3, h4]

theorem skipWs_cons_not {c : Char} (z : List Char) (h : isJsonWs c = false) :
    skipWs (c :: z) = c :: z := by
  simp [skipWs, h]

theorem skipWs_append_ws : ∀ (w z : List Char), (∀ c ∈ w, isJsonWs c = true) →
    skipWs (w ++ z) = skipWs z := by
  intro w
  induction w with
  | nil => intro z _; rfl
  | cons c rest IH =>
    intro z h
    rw [List.cons_append]
    simp only [skipWs, h c (by simp), if_true]
    exact IH z (fun d hd => h d (by simp [hd]))

/-- The string-body parser reads identifier content verbatim up to the
closing quote. -/
theorem parseStringBody_clean : ∀ (cs r : List Char) (fuel : Nat),
    (∀ c ∈ cs, (isAlnumAscii c || c == '-') = true) → cs.length < fuel →
    parseStringBody fuel (cs ++ '"' :: r) = some (cs, r) := by
  intro cs
  induction cs with
  | nil =>
    intro r fuel _ hf
    obtain ⟨f, rfl⟩ : ∃ f, fuel = f + 1 := ⟨fuel - 1, by omega⟩
    simp [parseStringBody]
  | cons c rest IH =>
    intro r fuel h hf
    obtain ⟨f, rfl⟩ : ∃ f, fuel = f + 1 := ⟨fuel - 1, by omega⟩
    obtain ⟨hq, hb, -⟩ := goodChar_facts (h c (by simp))
    rw [List.cons_append]
    simp only [parseStringBody, if_neg hq, if_neg hb]
    rw [IH r f (fun d hd => h d (by simp [hd])) (by simp at hf; omega)]

/-- One-step unfolding of `parseItems` at positive fuel. -/
theorem parseItems_succ (fuel : Nat) (l : List Char) :
    parseItems (fuel + 1) l =
      (match skipWs l with
       | [] => none
       | c :: rest =>
         if c = '"' then
           match parseStringBody (rest.length + 1) rest with
           | none => none
           | some (cs, r) =>
             match skipWs r with
             | [] => none
             | c2 :: r2 =>
               if c2 = ',' then
                 match parseItems fuel r2 with
                 | some (ss, r3) => some (cs :: ss, r3)
                 | none => none
               else if c2 = ']' then some ([cs], r2)
               else none
         else none) := rfl

/-- Parsing the item region of a dumped non-empty list returns exactly the
original strings (as character lists) and consumes everything. -/
theorem parseItems_dump : ∀ (xs : List String) (x : String) (w : List Char) (fuel : Nat),
    (∀ s ∈ x :: xs, ∀ c ∈ s.data, (isAlnumAscii c || c == '-') = true) →
    (∀ c ∈ w, isJsonWs c = true) →
    xs.length < fuel →
    parseItems fuel (w ++ jsonStringLit x ++
        (xs.map (fun s => [',', '\n'] ++ indent4 ++ jsonStringLit s)).flatten ++
        ['\n', ']']) =
      some ((x :: xs).map (fun s => s.data), []) := by
  intro xs
  induction xs with
  | nil =>
    intro x w fuel hgood hw hf
    obtain ⟨f, rfl⟩ : ∃ f, fuel = f + 1 := ⟨fuel - 1, by omega⟩
    have hx : ∀ c ∈ x.data, (isAlnumAscii c || c == '-') = true := hgood x (by simp)
    have hlit : jsonStringLit x = '"' :: (x.data ++ ['"']) := by
      rw [jsonStringLit, escape_map_id hx]; simp
    have hinput : w ++ jsonStringLit x ++
        (([] : List String).map (fun s => [',', '\n'] ++ indent4 ++ jsonStringLit s)).flatten ++
        ['\n', ']'] = w ++ ('"' :: (x.data ++ '"' :: ['\n', ']'])) := by
      rw [hlit]; simp
    have hskip : skipWs (w ++ ('"' :: (x.data ++ '"' :: ['\n', ']']))) =
        '"' :: (x.data ++ '"' :: ['\n', ']']) := by
      rw [skipWs_append_ws w _ hw]
      exact skipWs_cons_not _ (by decide)
    have hps : parseStringBody ((x.data ++ '"' :: ['\n', ']']).length + 1)
        (x.data ++ '"' :: ['\n', ']']) = some (x.data, ['\n', ']']) :=
      parseStringBody_clean x.data ['\n', ']'] _ hx
        (by simp only [List.length_append, List.length_cons, List.length_nil]; omega)
    rw [parseItems_succ, hinput, hskip]
    simp only [if_true]
    rw [hps]
    simp [skipWs, show isJsonWs '\n' = true from by decide,
      show isJsonWs ']' = false from by decide]
  | cons y ys IH =>
    intro x w fuel hgood hw hf
    obtain ⟨f, rfl⟩ : ∃ f, fuel = f + 1 := ⟨fuel - 1, by omega⟩
    have hx : ∀ c ∈ x.data, (isAlnumAscii c || c == '-') = true := hgood x (by simp)
    have hlit : jsonStringLit x = '"' :: (x.data ++ ['"']) := by
      rw [jsonStringLit, escape_map_id hx]; simp
    have hinput : w ++ jsonStringLit x ++
        ((y :: ys).map (fun s => [',', '\n'] ++ indent4 ++ jsonStringLit s)).flatten ++
        ['\n', ']'] =
        w ++ ('"' :: (x.data ++ '"' ::
          (',' :: (('\n' :: indent4) ++ jsonStringLit y ++
            (ys.map (fun s => [',', '\n'] ++ indent4 ++ jsonStringLit s)).flatten ++
            ['\n', ']'])))) := by
      rw [hlit]; simp
    have hskip : skipWs (w ++ ('"' :: (x.data ++ '"' ::
        (',' :: (('\n' :: indent4) ++ jsonStringLit y ++
          (ys.map (fun s => [',', '\n'] ++ indent4 ++ jsonStringLit s)).flatten ++
          ['\n', ']']))))) =
        '"' :: (x.data ++ '"' ::
          (',' :: (('\n' :: indent4) ++ jsonStringLit y ++
            (ys.map (fun s => [',', '\n'] ++ indent4 ++ jsonStringLit s)).flatten ++
            ['\n', ']']))) := by
      rw [skipWs_append_ws w _ hw]
      exact skipWs_cons_not _ (by decide)
    have hps : parseStringBody
        ((x.data ++ '"' :: (',' :: (('\n' :: indent4) ++ jsonStringLit y ++
          (ys.map (fun s => [',', '\n'] ++ indent4 ++ jsonStringLit s)).flatten ++
          ['\n', ']']))).length + 1)
        (x.data ++ '"' :: (',' :: (('\n' :: indent4) ++ jsonStringLit y ++
          (ys.map (fun s => [',', '\n'] ++ indent4 ++ jsonStringLit s)).flatten ++
          ['\n', ']']))) =
        some (x.data, ',' :: (('\n' :: indent4) ++ jsonStringLit y ++
          (ys.map (fun s => [',', '\n'] ++ indent4 ++ jsonStringLit s)).flatten ++
          ['\n', ']'])) :=
      parseStringBody_clean x.data _ _ hx
        (by simp only [List.length_append, List.length_cons, List.length_nil]; omega)
    have hskip2 : skipWs (',' :: (('\n' :: indent4) ++ jsonStringLit y ++
        (ys.map (fun s => [',', '\n'] ++ indent4 ++ jsonStringLit s)).flatten ++
        ['\n', ']'])) =
        ',' :: (('\n' :: indent4) ++ jsonStringLit y ++
          (ys.map (fun s => [',', '\n'] ++ indent4 ++ jsonStringLit s)).flatten ++
          ['\n', ']']) :=
      skipWs_cons_not _ (by decide)
    have hIH := IH y ('\n' :: indent4) f
      (fun s hs => hgood s (by simp at hs ⊢; tauto))
      (by decide) (by simp at hf; omega)
    rw [parseItems_succ, hinput, hskip]
    simp only [if_true]
    rw [hps]
    simp only [hskip2, if_true]
    rw [hIH]
    simp

theorem specGrammar_all_good {s : List Char} (h : specGrammar s = true) :
    ∀ c ∈ s, (isAlnumAscii c || c == '-') = true := by
  intro c hc
  simp only [specGrammar, Bool.and_eq_true, List.all_eq_true] at h
  exact h.1.1.1.2 c hc

theorem string_mk_data (s : String) : String.mk s.data = s := by
  obtain ⟨d⟩ := s
  rfl

theorem sep_length_ge (xs : List String) :
    xs.length ≤ ((xs.map (fun s => [',', '\n'] ++ indent4 ++ jsonStringLit s)).flatten).length := by
  induction xs with
  | nil => simp
  | cons y ys IH =>
    simp only [List.map_cons, List.flatten_cons, List.length_append, List.length_cons,
      List.length_nil, indent4] at *
    omega

/-- Claim C9: saving a list of identifier strings in `json` format (an
indented JSON array of strings, as `json.dump(data, f, indent=4)` writes
it) and parsing the written file back yields the original ordered
sequence exactly, and the two concrete dumps show the file layout. -/
theorem json_roundtrip_spec :
    (∀ l : List String, (∀ s ∈ l, specGrammar s.data = true) →
        jsonParseList (jsonDumpList l) = some l)
    ∧ jsonDumpList ["a", "b"] = "[\n    \"a\",\n    \"b\"\n]".data
    ∧ jsonDumpList [] = "[]".data := by
  refine ⟨?_, by decide, by decide⟩
  intro l hl
  cases l with
  | nil => rfl
  | cons x xs =>
    have hgood : ∀ s ∈ x :: xs, ∀ c ∈ s.data, (isAlnumAscii c || c == '-') = true :=
      fun s hs => specGrammar_all_good (hl s hs)
    have hdump : jsonDumpList (x :: xs) =
        '[' :: ('\n' :: (indent4 ++ (jsonStringLit x ++ ((xs.map (fun s => [',', '\n'] ++ indent4 ++ jsonStringLit s)).flatten ++ ['\n', ']'])))) := by
      simp [jsonDumpList]
    have hsr : skipWs (('\n' :: indent4) ++ (jsonStringLit x ++ ((xs.map (fun s => [',', '\n'] ++ indent4 ++ jsonStringLit s)).flatten ++ ['\n', ']']))) =
        '"' :: ((x.data.map escapeJsonChar).flatten ++ ('"' :: ((xs.map (fun s => [',', '\n'] ++ indent4 ++ jsonStringLit s)).flatten ++ ['\n', ']']))) := by
      rw [skipWs_append_ws ('\n' :: indent4) _ (by decide)]
      rw [show jsonStringLit x ++ ((xs.map (fun s => [',', '\n'] ++ indent4 ++ jsonStringLit s)).flatten ++ ['\n', ']']) =
        '"' :: ((x.data.map escapeJsonChar).flatten ++ ('"' :: ((xs.map (fun s => [',', '\n'] ++ indent4 ++ jsonStringLit s)).flatten ++ ['\n', ']']))) from by
          rw [jsonStringLit]; simp]
      exact skipWs_cons_not _ (by decide)
    rw [hdump]
    unfold jsonParseList
    rw [skipWs_cons_not _ (by decide)]
    simp only [if_true]
    rw [show ('\n' :: (indent4 ++ (jsonStringLit x ++ ((xs.map (fun s => [',', '\n'] ++ indent4 ++ jsonStringLit s)).flatten ++ ['\n', ']'])))) =
      (('\n' :: indent4) ++ (jsonStringLit x ++ ((xs.map (fun s => [',', '\n'] ++ indent4 ++ jsonStringLit s)).flatten ++ ['\n', ']']))) from by simp]
    rw [hsr]
    simp only []
    rw [if_neg (show ¬ (('"' : Char) = ']') from by decide)]
    have hitems := parseItems_dump xs x ('\n' :: indent4)
      (((('\n' :: indent4) ++ jsonStringLit x ++ (xs.map (fun s => [',', '\n'] ++ indent4 ++ jsonStringLit s)).flatten ++ ['\n', ']'])).length + 1) hgood
      (by decide)
      (by
        have hsep := sep_length_ge xs
        simp only [List.length_append, List.length_cons, indent4, List.length_nil] at hsep ⊢
        omega)
    rw [show (('\n' :: indent4) ++ (jsonStringLit x ++ ((xs.map (fun s => [',', '\n'] ++ indent4 ++ jsonStringLit s)).flatten ++ ['\n', ']']))) =
      (('\n' :: indent4) ++ jsonStringLit x ++ (xs.map (fun s => [',', '\n'] ++ indent4 ++ jsonStringLit s)).flatten ++ ['\n', ']']) from by simp]
    rw [hitems]
    have hmap : ∀ ss : List String,
        List.map ((fun cs => String.mk cs) ∘ fun s => s.data) ss = ss := by
      intro ss
      induction ss with
      | nil => rfl
      | cons a t IH2 => simp only [List.map_cons, Function.comp_apply, string_mk_data, IH2]
    simp [string_mk_data, List.map_map, skipWs, hmap]

/-- Witness for C9 at a concrete list of identifiers. -/
theorem json_roundtrip_spec_witness :
    jsonParseList (jsonDumpList ["abc", "a-b"]) = some ["abc", "a-b"] :=
  json_roundtrip_spec.1 ["abc", "a-b"] (by decide)
